import Mathlib

/-!
# html2image: the screenshot capture workflow

A shallow embedding of `html2image.go`: the parameter structures and their
constructors, and the method `Convert`, which drives one browser automation
session through navigate, sleep, layout measurement, viewport emulation and
screenshot capture.

The browser automation library is external to the repository.  Its calls are
modelled as replies of an environment `Env`: every reply is a function of the
history of events so far, so a reply may depend on everything that happened
before it.  `Convert` appends every call it issues, together with the reply it
got, to that history; the history at exit is the trace of the invocation.
-/

namespace Html2Image

/-! ## Go values -/

/-- A Go `error` value, identified by its message. -/
structure GoError where
  msg : String
deriving DecidableEq, Repr

/-- The function `errors.New`. -/
def errorsNew (text : String) : GoError := ⟨text⟩

/-- A Go `[]byte`: the nil slice, or a slice holding the given bytes. -/
inductive ByteSlice where
  | nil
  | bytes (data : List UInt8)
deriving DecidableEq, Repr

/-- A Go `float64`.  A finite value is carried by the rational number it
denotes (every finite float64 is a dyadic rational; not every rational is a
float64, so a statement over all `Float64` covers more than the machine type).
The program only copies such values and converts them to `int64`. -/
inductive Float64 where
  | finite (v : ℚ)
  | posInf
  | negInf
  | nan
deriving DecidableEq

/-- Wrap an integer into the two-complement range of `int64`. -/
def wrapInt64 (x : Int) : Int := (x + 2 ^ 63) % 2 ^ 64 - 2 ^ 63

/-- The Go conversion `int64(f)` of a float64: the fraction is discarded
(truncation towards zero).  When the truncated value does not fit `int64`, or
`f` is not finite, the language leaves the result to the implementation:
`impl` supplies it, and it is an `int64` whatever `impl` answers. -/
def int64OfFloat64 (impl : Float64 → Int) (f : Float64) : Int :=
  match f with
  | .finite v =>
    let t := Int.tdiv v.num (v.den : Int)
    if -(2 : Int) ^ 63 ≤ t ∧ t < (2 : Int) ^ 63 then t else wrapInt64 (impl f)
  | _ => wrapInt64 (impl f)

/-- The constant `time.Millisecond`, in nanoseconds. -/
def timeMillisecond : Int := 1000000

/-- The expression `time.Duration(n) * time.Millisecond`: an `int64` product,
which wraps around on overflow. -/
def durationMilliseconds (n : Int) : Int := wrapInt64 (wrapInt64 n * timeMillisecond)

/-! ## Types of the browser automation library used by the source -/

/-- The type `page.CaptureScreenshotFormat`, a string type. -/
abbrev CaptureScreenshotFormat := String

/-- The type `page.Viewport`. -/
structure Viewport where
  X : Float64
  Y : Float64
  Width : Float64
  Height : Float64
  Scale : Float64
deriving DecidableEq

/-- The fields of `page.CaptureScreenshotParams` that the source sets.  `Clip`
is a pointer in Go: `none` is the nil pointer. -/
structure CaptureScreenshotParams where
  Format : CaptureScreenshotFormat
  Quality : Int
  Clip : Option Viewport
  FromSurface : Bool
deriving DecidableEq

/-- The content-size rectangle of a layout-metrics reply (`dom.Rect`). -/
structure Rect where
  X : Float64
  Y : Float64
  Width : Float64
  Height : Float64
deriving DecidableEq

/-- The type `emulation.OrientationType`. -/
inductive OrientationType where
  | portraitPrimary
  | portraitSecondary
  | landscapePrimary
  | landscapeSecondary
deriving DecidableEq, Repr

/-- The type `emulation.ScreenOrientation`. -/
structure ScreenOrientation where
  Typ : OrientationType
  Angle : Int
deriving DecidableEq, Repr

/-! ## Constants and parameter structures of the package -/

def FormatPng : CaptureScreenshotFormat := "png"
def DefaultQuality : Int := 0
def DefaultFromSurface : Bool := true
def DefaultViewportX : Float64 := .finite 0
def DefaultViewportY : Float64 := .finite 0
def DefaultViewportWidth : Float64 := .finite 996
def DefaultViewportHeight : Float64 := .finite 996
def DefaultViewportScale : Float64 := .finite 1
def DefaultWaitingTime : Int := 0

/-- The struct `Html2ImageParams`: the embedded `page.CaptureScreenshotParams`
and the two fields of the package. -/
structure Html2ImageParams extends CaptureScreenshotParams where
  CustomClip : Bool
  WaitingTime : Int
deriving DecidableEq

/-- The struct `CommonRequestDTO`. -/
structure CommonRequestDTO where
  Url : String
  UploadKey : String
  Username : String
  Password : String
deriving DecidableEq

/-- The struct `Html2ImageRequestDTO`. -/
structure Html2ImageRequestDTO extends CommonRequestDTO where
  Format : CaptureScreenshotFormat
  Quality : Int
  CustomClip : Bool
  ClipX : Float64
  ClipY : Float64
  ClipWidth : Float64
  ClipHeight : Float64
  ClipScale : Float64
  FromSurface : Bool
  WaitingTime : Int
deriving DecidableEq

/-- The function `NewDefaultHtml2ImageParams`. -/
def NewDefaultHtml2ImageParams : Html2ImageParams :=
  { CustomClip := false
    Format := FormatPng
    Quality := DefaultQuality
    Clip := some
      { X := DefaultViewportX
        Y := DefaultViewportY
        Width := DefaultViewportWidth
        Height := DefaultViewportHeight
        Scale := DefaultViewportScale }
    FromSurface := DefaultFromSurface
    WaitingTime := DefaultWaitingTime }

/-- The function `newDefaultHtml2ImageRequestDTO`; the fields it leaves out
hold the zero value of their type. -/
def newDefaultHtml2ImageRequestDTO : Html2ImageRequestDTO :=
  { Url := ""
    UploadKey := ""
    Username := ""
    Password := ""
    Format := FormatPng
    Quality := DefaultQuality
    CustomClip := false
    ClipX := DefaultViewportX
    ClipY := DefaultViewportY
    ClipWidth := DefaultViewportWidth
    ClipHeight := DefaultViewportHeight
    ClipScale := DefaultViewportScale
    FromSurface := DefaultFromSurface
    WaitingTime := DefaultWaitingTime }

/-- The function `convertToHtml2ImageParams`.  The clip pointer of the default
parameters is never nil, so the five assignments through it cannot panic. -/
def convertToHtml2ImageParams (requestDTO : Html2ImageRequestDTO) : Html2ImageParams :=
  let params := NewDefaultHtml2ImageParams
  let params := { params with Format := requestDTO.Format }
  let params := { params with Quality := requestDTO.Quality }
  let params := { params with CustomClip := requestDTO.CustomClip }
  let params := { params with Clip := params.Clip.map fun (c : Viewport) => { c with X := requestDTO.ClipX } }
  let params := { params with Clip := params.Clip.map fun (c : Viewport) => { c with Y := requestDTO.ClipY } }
  let params := { params with Clip := params.Clip.map fun (c : Viewport) => { c with Width := requestDTO.ClipWidth } }
  let params := { params with Clip := params.Clip.map fun (c : Viewport) => { c with Height := requestDTO.ClipHeight } }
  let params := { params with Clip := params.Clip.map fun (c : Viewport) => { c with Scale := requestDTO.ClipScale } }
  let params := { params with FromSurface := requestDTO.FromSurface }
  let params := { params with WaitingTime := requestDTO.WaitingTime }
  params

/-! ## The external session -/

/-- The reply to `page.GetLayoutMetrics().Do`: the content-size rectangle of a
successful reply, or the error of a failed one.  The other five rectangles of
the reply are discarded by the source. -/
inductive LayoutMetricsReply where
  | ok (contentSize : Rect)
  | failed (err : GoError)
deriving DecidableEq

/-- One entry of the history: a call issued by `Convert` together with the
reply it received.  The entries are in the order in which they happened. -/
inductive Event where
  | timeNow (t : Int)
  | newContext
  | navigate (url : String) (err : Option GoError)
  | sleep (d : Int) (err : Option GoError)
  | getLayoutMetrics (reply : LayoutMetricsReply)
  | setDeviceMetricsOverride (width height : Int) (deviceScaleFactor : Float64)
      (mobile : Bool) (screenOrientation : Option ScreenOrientation) (err : Option GoError)
  | captureScreenshot (params : CaptureScreenshotParams) (buf : ByteSlice) (err : Option GoError)
  | cancel
deriving DecidableEq

/-- Everything outside the package: the clock, the replies of the automation
library to each call (a nil error is `none`), and the answer of the platform
to an out-of-range float conversion.  Each reply is a function of the history
so far and of the arguments of the call.  The sleep is an action of the
library like the others; it fails when the context is cancelled meanwhile. -/
structure Env where
  clock : List Event → Int
  navigate : List Event → String → Option GoError
  sleep : List Event → Int → Option GoError
  getLayoutMetrics : List Event → LayoutMetricsReply
  setDeviceMetricsOverride :
    List Event → Int → Int → Float64 → Bool → Option ScreenOrientation → Option GoError
  captureScreenshot : List Event → CaptureScreenshotParams → ByteSlice × Option GoError
  floatToInt : Float64 → Int

/-! ## The converter -/

/-- The dynamic value held by the empty interface `Params`: nil, a
`Html2ImageParams` value, a pointer to one, or a value of some other type. -/
inductive Params where
  | nil
  | html2ImageParams (v : Html2ImageParams)
  | html2ImageParamsPtr (v : Option Html2ImageParams)
  | other (typeName : String)
deriving DecidableEq

/-- The struct `ConvertConfig`. -/
structure ConvertConfig where
  Url : String
  Params : Params
deriving DecidableEq

/-- A `context.Context` interface value: the nil interface, which is what the
zero value of `Conver` holds, or a context, identified by a token. -/
inductive Context where
  | nil
  | valid (id : Nat)
deriving DecidableEq, Repr

/-- Whether the context is the nil interface. -/
def Context.isNil : Context → Bool
  | .nil => true
  | .valid _ => false

/-- The struct `Conver`; `convertElapsed` is a `time.Duration`, in
nanoseconds. -/
structure Conver where
  ctx : Context
  cc : ConvertConfig
  buf : ByteSlice
  convertElapsed : Int
deriving DecidableEq

/-- The struct `html2image`, which embeds `Conver`. -/
structure html2image extends Conver
deriving DecidableEq

/-- The method `GetConvertElapsed`. -/
def html2image.GetConvertElapsed (ins : html2image) : Int :=
  ins.convertElapsed

/-- How a Go function call ends: it returns its two results, or it panics. -/
inductive Result where
  | returned (buf : ByteSlice) (err : Option GoError)
  | panicked
deriving DecidableEq

/-- How one action ends. -/
inductive ActionResult where
  | ok
  | failed (err : GoError)
  | panicked
deriving DecidableEq

/-- The result of an action that returns the error `err`. -/
def ActionResult.ofError (err : Option GoError) : ActionResult :=
  match err with
  | none => .ok
  | some e => .failed e

/-- The variables that the actions of `Convert` read and write: the history,
the viewport that `params.Clip` points to (shared with the value stored in
`ins.cc.Params`), and `ins.buf`. -/
structure Frame where
  trace : List Event
  clip : Option Viewport
  buf : ByteSlice

/-- A `chromedp.Action`. -/
abbrev Action := Frame → Frame × ActionResult

/-- The function `chromedp.Run` on a list of actions: it runs them in order and
stops at the first one that does not return a nil error, which it returns as
it is.  Starting the browser, which the library does on the first run, counts
as part of the first action. -/
def chromedpRun : List Action → Frame → Frame × ActionResult
  | [], fr => (fr, .ok)
  | a :: rest, fr =>
    match a fr with
    | (fr1, .ok) => chromedpRun rest fr1
    | (fr1, r) => (fr1, r)

/-- The action `chromedp.Navigate(url)`. -/
def chromedpNavigate (env : Env) (url : String) : Action := fun fr =>
  let err := env.navigate fr.trace url
  ({ fr with trace := fr.trace ++ [Event.navigate url err] }, ActionResult.ofError err)

/-- The action `chromedp.Sleep(d)`. -/
def chromedpSleep (env : Env) (d : Int) : Action := fun fr =>
  let err := env.sleep fr.trace d
  ({ fr with trace := fr.trace ++ [Event.sleep d err] }, ActionResult.ofError err)

/-- The first block of the action function of `Convert`: when `CustomClip` is
false, get the layout metrics and store the content size through the clip
pointer.  The store panics on a nil pointer. -/
def measureClip (env : Env) (params : Html2ImageParams) : Action := fun fr =>
  if !params.CustomClip then
    match env.getLayoutMetrics fr.trace with
    | .failed err =>
      ({ fr with trace := fr.trace ++ [Event.getLayoutMetrics (.failed err)] }, .failed err)
    | .ok contentSize =>
      let fr := { fr with trace := fr.trace ++ [Event.getLayoutMetrics (.ok contentSize)] }
      match fr.clip with
      | none => (fr, .panicked)
      | some c =>
        let c := { c with X := contentSize.X }
        let c := { c with Y := contentSize.Y }
        let c := { c with Width := contentSize.Width }
        let c := { c with Height := contentSize.Height }
        ({ fr with clip := some c }, .ok)
  else (fr, .ok)

/-- The second block: force the viewport emulation.  Reading the width through
a nil clip pointer panics before the call is issued. -/
def forceViewportEmulation (env : Env) : Action := fun fr =>
  match fr.clip with
  | none => (fr, .panicked)
  | some c =>
    let width := int64OfFloat64 env.floatToInt c.Width
    let height := int64OfFloat64 env.floatToInt c.Height
    let orient : ScreenOrientation := { Typ := .portraitPrimary, Angle := 0 }
    let err := env.setDeviceMetricsOverride fr.trace width height (.finite 1) false (some orient)
    ({ fr with trace := fr.trace ++
        [Event.setDeviceMetricsOverride width height (.finite 1) false (some orient) err] },
      ActionResult.ofError err)

/-- The third block: `ins.buf, err = params.Do(ctx)`, the screenshot capture
with the embedded capture parameters, whose clip is the one just resolved. -/
def captureScreenshot (env : Env) (params : Html2ImageParams) : Action := fun fr =>
  let p : CaptureScreenshotParams := { params.toCaptureScreenshotParams with Clip := fr.clip }
  let reply := env.captureScreenshot fr.trace p
  ({ fr with trace := fr.trace ++ [Event.captureScreenshot p reply.1 reply.2], buf := reply.1 },
    ActionResult.ofError reply.2)

/-- The action function that `Convert` passes to `chromedp.Run` as its third
action: the three blocks in order, each returning early on an error. -/
def convertActionFunc (env : Env) (params : Html2ImageParams) : Action :=
  chromedpRun [measureClip env params, forceViewportEmulation env, captureScreenshot env params]

/-- What an invocation of `Convert` leaves behind: the receiver after the
call, how the call ended, and the history of the calls it issued. -/
structure Outcome where
  ins : html2image
  result : Result
  trace : List Event

/-- The deferred closure of `Convert`, which runs last on every exit, a panic
included: `ins.convertElapsed = time.Since(start)`, the clock reading at that
moment minus `start`, in nanoseconds. -/
def recordElapsed (env : Env) (start : Int) (ins : html2image) (trace : List Event)
    (result : Result) : Outcome :=
  let now := env.clock trace
  { ins := { ins with convertElapsed := now - start }
    result := result
    trace := trace ++ [Event.timeNow now] }

/-- The method `Convert`.  The two deferred calls run in the reverse order of
their registration: first the `cancel` of the session, then the closure that
records the elapsed time.  The type assertion comes before the session is
created, so the mismatch return has no `cancel` to run.  On a nil parent
context `chromedp.NewContext(ins.ctx)` panics: no session is created and
`cancel` is not yet deferred, so only the closure that records the elapsed
time runs.  The clip pointer of the local `params` is the one stored in
`ins.cc.Params`, so a store through it shows in the receiver afterwards. -/
def html2image.Convert (env : Env) (ins : html2image) : Outcome :=
  let start := env.clock []
  let trace := [Event.timeNow start]
  match ins.cc.Params with
  | .html2ImageParams params =>
    match ins.ctx with
    | .nil => recordElapsed env start ins trace Result.panicked
    | .valid _ =>
      let trace := trace ++ [Event.newContext]
      let run := chromedpRun
        [ chromedpNavigate env ins.cc.Url,
          chromedpSleep env (durationMilliseconds params.WaitingTime),
          convertActionFunc env params ]
        { trace := trace, clip := params.Clip, buf := ins.buf }
      let fr := run.1
      let ins : html2image :=
        { ins with
          buf := fr.buf
          cc := { ins.cc with Params := .html2ImageParams { params with Clip := fr.clip } } }
      let result :=
        match run.2 with
        | .ok => Result.returned fr.buf none
        | .failed err => Result.returned .nil (some err)
        | .panicked => Result.panicked
      recordElapsed env start ins (fr.trace ++ [Event.cancel]) result
  | _ =>
    recordElapsed env start ins trace
      (Result.returned .nil (some (errorsNew "wrong html2image params given")))

/-! ## Reading a trace -/

/-- The error carried by the reply of an event; `none` when the call succeeded
or the event has no reply. -/
def Event.err : Event → Option GoError
  | .navigate _ err => err
  | .sleep _ err => err
  | .getLayoutMetrics (.failed err) => some err
  | .setDeviceMetricsOverride _ _ _ _ _ err => err
  | .captureScreenshot _ _ err => err
  | _ => none

/-- Whether the event is one of the five steps run against the session. -/
def Event.isStep : Event → Bool
  | .navigate _ _ => true
  | .sleep _ _ => true
  | .getLayoutMetrics _ => true
  | .setDeviceMetricsOverride _ _ _ _ _ _ => true
  | .captureScreenshot _ _ _ => true
  | _ => false

/-- Whether the event is one of the four browser calls, the sleep left out. -/
def Event.isBrowserCall : Event → Bool
  | .navigate _ _ => true
  | .getLayoutMetrics _ => true
  | .setDeviceMetricsOverride _ _ _ _ _ _ => true
  | .captureScreenshot _ _ _ => true
  | _ => false

/-- The five kinds of step. -/
inductive StepKind where
  | navigate
  | sleep
  | getLayoutMetrics
  | setDeviceMetricsOverride
  | captureScreenshot
deriving DecidableEq, Repr

/-- The kind of step of an event; `none` for an event that is not a step. -/
def Event.kind : Event → Option StepKind
  | .navigate _ _ => some .navigate
  | .sleep _ _ => some .sleep
  | .getLayoutMetrics _ => some .getLayoutMetrics
  | .setDeviceMetricsOverride _ _ _ _ _ _ => some .setDeviceMetricsOverride
  | .captureScreenshot _ _ _ => some .captureScreenshot
  | _ => none

/-- The kinds of the steps of a trace, in order. -/
def stepKinds (trace : List Event) : List StepKind := trace.filterMap Event.kind

/-- The steps of a trace, in order. -/
def steps (trace : List Event) : List Event := trace.filter Event.isStep

/-- The browser calls of a trace, in order. -/
def browserCalls (trace : List Event) : List Event := trace.filter Event.isBrowserCall

/-- The number of session teardowns in a trace. -/
def cancelCount (trace : List Event) : Nat := trace.count Event.cancel

/-- The number of sessions created in a trace. -/
def newContextCount (trace : List Event) : Nat := trace.count Event.newContext

/-! ## Concrete sessions and receivers -/

/-- A session that gives each call a fixed reply, whatever the history.  Its
clock advances by 250 for each event; an out-of-range float conversion yields
the least `int64`. -/
def stubEnv (navigateErr sleepErr : Option GoError) (metrics : LayoutMetricsReply)
    (emulationErr : Option GoError) (capture : ByteSlice × Option GoError) : Env :=
  { clock := fun h => 1000 + 250 * (h.length : Int)
    navigate := fun _ _ => navigateErr
    sleep := fun _ _ => sleepErr
    getLayoutMetrics := fun _ => metrics
    setDeviceMetricsOverride := fun _ _ _ _ _ _ => emulationErr
    captureScreenshot := fun _ _ => capture
    floatToInt := fun _ => -(2 : Int) ^ 63 }

/-- The content size of the end-to-end scenario. -/
def scenarioRect : Rect :=
  { X := .finite 0, Y := .finite 0, Width := .finite 800, Height := .finite 600 }

/-- The clip that the end-to-end scenario expects at the capture. -/
def scenarioClip : Viewport :=
  { X := .finite 0, Y := .finite 0, Width := .finite 800, Height := .finite 600, Scale := .finite 1 }

/-- The stub session of the end-to-end scenario: every step succeeds, the
content size is 800 by 600 at the origin, the screenshot is the bytes 1, 2, 3. -/
def scenarioEnv : Env :=
  stubEnv none none (.ok scenarioRect) none (.bytes [1, 2, 3], none)

/-- A receiver as the test of the package builds it, for the given URL and
parameters, on the background context. -/
def receiverOf (url : String) (params : Params) : html2image :=
  { ctx := .valid 0, cc := { Url := url, Params := params }, buf := .nil, convertElapsed := 0 }

/-- The receiver of the end-to-end scenario: default parameters. -/
def scenarioIns : html2image :=
  receiverOf "https://example.test"
    (.html2ImageParams (convertToHtml2ImageParams newDefaultHtml2ImageRequestDTO))

/-! ## The paths of an invocation -/

/-- The clip that the emulation and the capture use, and the steps run before
the emulation: the clip of the caller after navigate and sleep when `CustomClip`
is true, the measured content size with the scale of the caller after navigate,
sleep and a successful layout-metrics query otherwise. -/
inductive Resolved (p : Html2ImageParams) (url : String) : List Event → Viewport → Prop
  | custom (c : Viewport) (hc : p.CustomClip = true) (hclip : p.Clip = some c) :
      Resolved p url
        [.navigate url none, .sleep (durationMilliseconds p.WaitingTime) none] c
  | measured (c : Viewport) (r : Rect) (hc : p.CustomClip = false) (hclip : p.Clip = some c) :
      Resolved p url
        [.navigate url none, .sleep (durationMilliseconds p.WaitingTime) none,
          .getLayoutMetrics (.ok r)]
        { X := r.X, Y := r.Y, Width := r.Width, Height := r.Height, Scale := c.Scale }

/-- The emulation call that `Convert` issues for the resolved clip `c`. -/
def emulationEvent (impl : Float64 → Int) (c : Viewport) (err : Option GoError) : Event :=
  .setDeviceMetricsOverride (int64OfFloat64 impl c.Width) (int64OfFloat64 impl c.Height)
    (.finite 1) false (some { Typ := .portraitPrimary, Angle := 0 }) err

/-- The ways an invocation of `Convert` on a `Html2ImageParams` value can go:
the steps it runs, how it ends, and the final values of the clip and of
`ins.buf`. -/
inductive ConvertPath (p : Html2ImageParams) (url : String) (impl : Float64 → Int)
    (buf0 : ByteSlice) : List Event → Result → Option Viewport → ByteSlice → Prop
  | navigateFailed (e : GoError) :
      ConvertPath p url impl buf0 [.navigate url (some e)] (.returned .nil (some e)) p.Clip buf0
  | sleepFailed (e : GoError) :
      ConvertPath p url impl buf0
        [.navigate url none, .sleep (durationMilliseconds p.WaitingTime) (some e)]
        (.returned .nil (some e)) p.Clip buf0
  | metricsFailed (e : GoError) (hc : p.CustomClip = false) :
      ConvertPath p url impl buf0
        [.navigate url none, .sleep (durationMilliseconds p.WaitingTime) none,
          .getLayoutMetrics (.failed e)]
        (.returned .nil (some e)) p.Clip buf0
  | measuredNilClip (r : Rect) (hc : p.CustomClip = false) (hclip : p.Clip = none) :
      ConvertPath p url impl buf0
        [.navigate url none, .sleep (durationMilliseconds p.WaitingTime) none,
          .getLayoutMetrics (.ok r)]
        .panicked none buf0
  | customNilClip (hc : p.CustomClip = true) (hclip : p.Clip = none) :
      ConvertPath p url impl buf0
        [.navigate url none, .sleep (durationMilliseconds p.WaitingTime) none]
        .panicked none buf0
  | emulationFailed (pre : List Event) (c : Viewport) (hres : Resolved p url pre c) (e : GoError) :
      ConvertPath p url impl buf0 (pre ++ [emulationEvent impl c (some e)])
        (.returned .nil (some e)) (some c) buf0
  | captureFailed (pre : List Event) (c : Viewport) (hres : Resolved p url pre c)
      (buf : ByteSlice) (e : GoError) :
      ConvertPath p url impl buf0
        (pre ++ [emulationEvent impl c none,
          .captureScreenshot { p.toCaptureScreenshotParams with Clip := some c } buf (some e)])
        (.returned .nil (some e)) (some c) buf
  | captured (pre : List Event) (c : Viewport) (hres : Resolved p url pre c) (buf : ByteSlice) :
      ConvertPath p url impl buf0
        (pre ++ [emulationEvent impl c none,
          .captureScreenshot { p.toCaptureScreenshotParams with Clip := some c } buf none])
        (.returned buf none) (some c) buf

/-- Whether the interface value holds a `Html2ImageParams` value, that is,
whether the type assertion of `Convert` succeeds. -/
def Params.isHtml2ImageParams : Params → Bool
  | .html2ImageParams _ => true
  | _ => false

/-- Whether the invocation gets as far as creating a session: the type
assertion succeeds and the parent context is not nil. -/
def html2image.createsSession (ins : html2image) : Bool :=
  ins.cc.Params.isHtml2ImageParams && !ins.ctx.isNil

/-- The scenario receiver with the nil parent context of a zero-valued
`Conver`. -/
def nilContextIns : html2image :=
  { scenarioIns with ctx := .nil }

/-- The receiver whose `Params` is the nil interface value. -/
def nilParamsIns : html2image := receiverOf "https://example.test" .nil

/-- The receiver whose `Params` is a pointer to the default parameters. -/
def pointerParamsIns : html2image :=
  receiverOf "https://example.test" (.html2ImageParamsPtr (some NewDefaultHtml2ImageParams))

/-- The zero value of `Html2ImageParams` with the png format: the clip
pointer is nil, `CustomClip` is false, the waiting time is 0. -/
def nilClipParams : Html2ImageParams :=
  { Format := FormatPng, Quality := 0, Clip := none, FromSurface := false,
    CustomClip := false, WaitingTime := 0 }

/-- A receiver holding `nilClipParams`. -/
def nilClipIns : html2image :=
  receiverOf "https://example.test" (.html2ImageParams nilClipParams)

/-- Default parameters with a custom clip whose width is two to the power 63,
a float64 value that is integral and one more than the largest `int64`. -/
def hugeClipParams : Html2ImageParams :=
  { NewDefaultHtml2ImageParams with
    CustomClip := true
    Clip := some { X := .finite 0, Y := .finite 0, Width := .finite 9223372036854775808,
                   Height := .finite 600, Scale := .finite 1 } }

/-- A receiver holding `hugeClipParams`. -/
def hugeClipIns : html2image :=
  receiverOf "https://example.test" (.html2ImageParams hugeClipParams)

/-- A session whose navigation fails with the given error. -/
def navigateFailsEnv (e : GoError) : Env :=
  stubEnv (some e) none (.ok scenarioRect) none (.bytes [1, 2, 3], none)

/-- A session whose layout-metrics query fails with the given error. -/
def metricsFailsEnv (e : GoError) : Env :=
  stubEnv none none (.failed e) none (.bytes [1, 2, 3], none)

/-- A session whose emulation override fails with the given error. -/
def emulationFailsEnv (e : GoError) : Env :=
  stubEnv none none (.ok scenarioRect) (some e) (.bytes [1, 2, 3], none)

/-- A session whose capture fails with the given error, returning no bytes. -/
def captureFailsEnv (e : GoError) : Env :=
  stubEnv none none (.ok scenarioRect) none (.nil, some e)

/-- Default parameters with a custom clip of 300 by 200 at (10, 20), scale 2. -/
def customClipParams : Html2ImageParams :=
  { NewDefaultHtml2ImageParams with
    CustomClip := true
    Clip := some { X := .finite 10, Y := .finite 20, Width := .finite 300,
                   Height := .finite 200, Scale := .finite 2 } }

/-- A receiver holding `customClipParams`. -/
def customClipIns : html2image :=
  receiverOf "https://example.test" (.html2ImageParams customClipParams)

/-- Default parameters with a waiting time of 1500 milliseconds. -/
def waitingParams : Html2ImageParams :=
  { NewDefaultHtml2ImageParams with WaitingTime := 1500 }

/-- A receiver holding `waitingParams`. -/
def waitingIns : html2image :=
  receiverOf "https://example.test" (.html2ImageParams waitingParams)

/-! ## Theorems -/

/-! ### The shape of an invocation -/

/-- Every invocation of `Convert` on a `Html2ImageParams` value and a parent
context that is not nil follows one of the paths of `ConvertPath`, between the
creation of the session and its teardown, with the clock read first and last. -/
theorem convert_path (env : Env) (ins : html2image) (p : Html2ImageParams)
    (h : ins.cc.Params = .html2ImageParams p) (hctx : ins.ctx.isNil = false) :
    ∃ sts res clip buf, ConvertPath p ins.cc.Url env.floatToInt ins.buf sts res clip buf ∧
      (ins.Convert env).trace =
        [.timeNow (env.clock []), .newContext] ++ sts ++
          [.cancel, .timeNow (env.clock ([.timeNow (env.clock []), .newContext] ++ sts ++ [.cancel]))] ∧
      (ins.Convert env).result = res ∧
      (ins.Convert env).ins.buf = buf ∧
      (ins.Convert env).ins.cc.Params = .html2ImageParams { p with Clip := clip } ∧
      (ins.Convert env).ins.convertElapsed =
        env.clock ([.timeNow (env.clock []), .newContext] ++ sts ++ [.cancel]) - env.clock [] := by
  unfold html2image.Convert
  cases hk : ins.ctx with
  | nil => simp [hk, Context.isNil] at hctx
  | valid k =>
  simp only [h, chromedpRun, chromedpNavigate, recordElapsed, ActionResult.ofError]
  generalize env.navigate _ _ = navErr
  cases navErr with
  | some e =>
    exact ⟨_, _, _, _, .navigateFailed e, by simp⟩
  | none =>
    simp only [chromedpSleep, ActionResult.ofError]
    generalize env.sleep _ _ = sleepErr
    cases sleepErr with
    | some e =>
      exact ⟨_, _, _, _, .sleepFailed e, by simp⟩
    | none =>
      simp only [convertActionFunc, chromedpRun]
      cases hc : p.CustomClip with
      | true =>
        simp only [measureClip, hc, Bool.not_true, Bool.false_eq_true, if_false,
          forceViewportEmulation]
        cases hclip : p.Clip with
        | none => exact ⟨_, _, _, _, .customNilClip hc hclip, by simp⟩
        | some c =>
          simp only [ActionResult.ofError]
          generalize env.setDeviceMetricsOverride _ _ _ _ _ _ = emuErr
          cases emuErr with
          | some e =>
            exact ⟨_, _, _, _, .emulationFailed _ c (.custom c hc hclip) e,
              by simp [emulationEvent]⟩
          | none =>
            simp only [captureScreenshot, ActionResult.ofError]
            generalize env.captureScreenshot _ _ = reply
            obtain ⟨buf, capErr⟩ := reply
            cases capErr with
            | some e =>
              exact ⟨_, _, _, _, .captureFailed _ c (.custom c hc hclip) buf e,
                by simp [emulationEvent]⟩
            | none =>
              exact ⟨_, _, _, _, .captured _ c (.custom c hc hclip) buf,
                by simp [emulationEvent]⟩
      | false =>
        simp only [measureClip, hc, Bool.not_false, if_true]
        generalize env.getLayoutMetrics _ = metrics
        cases metrics with
        | failed e => exact ⟨_, _, _, _, .metricsFailed e hc, by simp⟩
        | ok r =>
          cases hclip : p.Clip with
          | none => exact ⟨_, _, _, _, .measuredNilClip r hc hclip, by simp⟩
          | some c =>
            simp only [forceViewportEmulation, ActionResult.ofError]
            generalize env.setDeviceMetricsOverride _ _ _ _ _ _ = emuErr
            cases emuErr with
            | some e =>
              exact ⟨_, _, _, _, .emulationFailed _ _ (.measured c r hc hclip) e,
                by simp [emulationEvent]⟩
            | none =>
              simp only [captureScreenshot, ActionResult.ofError]
              generalize env.captureScreenshot _ _ = reply
              obtain ⟨buf, capErr⟩ := reply
              cases capErr with
              | some e =>
                exact ⟨_, _, _, _, .captureFailed _ _ (.measured c r hc hclip) buf e,
                  by simp [emulationEvent]⟩
              | none =>
                exact ⟨_, _, _, _, .captured _ _ (.measured c r hc hclip) buf,
                  by simp [emulationEvent]⟩

/-- Every event before the emulation is one of the five steps. -/
theorem resolved_isStep {p : Html2ImageParams} {url : String} {pre : List Event}
    {c : Viewport} (hres : Resolved p url pre c) : ∀ x ∈ pre, x.isStep = true := by
  cases hres <;> simp [Event.isStep]

/-- Every event of a path is one of the five steps. -/
theorem convertPath_isStep {p : Html2ImageParams} {url : String} {impl : Float64 → Int}
    {buf0 : ByteSlice} {sts : List Event} {res : Result} {clip : Option Viewport}
    {buf : ByteSlice} (hp : ConvertPath p url impl buf0 sts res clip buf) :
    ∀ x ∈ sts, x.isStep = true := by
  cases hp with
  | emulationFailed pre c hres e =>
    intro x hx
    simp only [List.mem_append, List.mem_singleton] at hx
    rcases hx with hx | rfl
    · exact resolved_isStep hres x hx
    · rfl
  | captureFailed pre c hres b e =>
    intro x hx
    simp only [List.mem_append, List.mem_cons, List.mem_singleton, List.not_mem_nil,
      or_false] at hx
    rcases hx with hx | rfl | rfl
    · exact resolved_isStep hres x hx
    · rfl
    · rfl
  | captured pre c hres b =>
    intro x hx
    simp only [List.mem_append, List.mem_cons, List.mem_singleton, List.not_mem_nil,
      or_false] at hx
    rcases hx with hx | rfl | rfl
    · exact resolved_isStep hres x hx
    · rfl
    · rfl
  | _ => simp [Event.isStep]

/-- The invocation on a value that is not a `Html2ImageParams`: the clock is
read twice and nothing else happens. -/
theorem convert_mismatch (env : Env) (ins : html2image)
    (h : ins.cc.Params.isHtml2ImageParams = false) :
    ins.Convert env =
      { ins := { ins with
          convertElapsed := env.clock [.timeNow (env.clock [])] - env.clock [] }
        result := .returned .nil (some (errorsNew "wrong html2image params given"))
        trace := [.timeNow (env.clock []), .timeNow (env.clock [.timeNow (env.clock [])])] } := by
  unfold html2image.Convert
  cases hP : ins.cc.Params <;> simp_all [Params.isHtml2ImageParams, recordElapsed]

/-- The invocation that creates no session, on a type mismatch or on a nil
parent context: the clock is read twice and nothing else happens; the receiver
changes in the elapsed time only. -/
theorem convert_no_session (env : Env) (ins : html2image)
    (h : ins.createsSession = false) :
    (ins.Convert env).trace =
        [.timeNow (env.clock []), .timeNow (env.clock [.timeNow (env.clock [])])] ∧
      (ins.Convert env).ins =
        { ins with convertElapsed := env.clock [.timeNow (env.clock [])] - env.clock [] } ∧
      (ins.Convert env).result =
        (if ins.cc.Params.isHtml2ImageParams then .panicked
          else .returned .nil (some (errorsNew "wrong html2image params given"))) := by
  unfold html2image.Convert
  cases hP : ins.cc.Params <;> cases hk : ins.ctx <;>
    simp_all [html2image.createsSession, Params.isHtml2ImageParams, Context.isNil,
      recordElapsed]

/-- An invocation that creates a session holds a `Html2ImageParams` value and
has a parent context that is not nil. -/
theorem createsSession_true (ins : html2image) (h : ins.createsSession = true) :
    ∃ p, ins.cc.Params = .html2ImageParams p ∧ ins.ctx.isNil = false := by
  cases hP : ins.cc.Params <;> cases hk : ins.ctx <;>
    simp_all [html2image.createsSession, Params.isHtml2ImageParams, Context.isNil]

/-- On a `Html2ImageParams` value and a nil parent context no session is
created. -/
theorem createsSession_nil_context (ins : html2image) (hctx : ins.ctx.isNil = true) :
    ins.createsSession = false := by
  simp [html2image.createsSession, hctx]

/-- A step of the trace of an invocation on a `Html2ImageParams` value is a
step of its path. -/
theorem mem_trace_of_path {t0 t1 : Int} {sts trace : List Event}
    (htrace : trace = [.timeNow t0, .newContext] ++ sts ++ [.cancel, .timeNow t1])
    (ev : Event) (hstep : ev.isStep = true) : ev ∈ trace ↔ ev ∈ sts := by
  subst htrace
  cases ev <;> simp_all [Event.isStep]

/-- The steps of the trace of an invocation on a `Html2ImageParams` value are
the steps of its path. -/
theorem steps_of_path {p : Html2ImageParams} {url : String} {impl : Float64 → Int}
    {buf0 : ByteSlice} {sts : List Event} {res : Result} {clip : Option Viewport}
    {buf : ByteSlice} (hp : ConvertPath p url impl buf0 sts res clip buf)
    {t0 t1 : Int} {trace : List Event}
    (htrace : trace = [.timeNow t0, .newContext] ++ sts ++ [.cancel, .timeNow t1]) :
    steps trace = sts := by
  subst htrace
  have hall : sts.filter Event.isStep = sts :=
    List.filter_eq_self.mpr (convertPath_isStep hp)
  simp [steps, List.filter_append, hall, Event.isStep]

/-- The first failing step of a path ends it, and its error is the result. -/
theorem convertPath_failure {p : Html2ImageParams} {url : String} {impl : Float64 → Int}
    {buf0 : ByteSlice} {sts : List Event} {res : Result} {clip : Option Viewport}
    {buf : ByteSlice} (hp : ConvertPath p url impl buf0 sts res clip buf)
    (ev : Event) (e : GoError) (hev : ev ∈ sts) (hfail : ev.err = some e) :
    res = .returned .nil (some e) ∧
      ∃ pre, sts = pre ++ [ev] ∧ ∀ x ∈ pre, x.err = none := by
  cases hp with
  | navigateFailed e1 =>
    simp only [List.mem_singleton] at hev
    subst hev
    simp only [Event.err, Option.some.injEq] at hfail
    subst hfail
    exact ⟨rfl, [], rfl, by simp⟩
  | sleepFailed e1 =>
    simp only [List.mem_cons, List.mem_singleton, List.not_mem_nil, or_false] at hev
    rcases hev with rfl | rfl
    · simp [Event.err] at hfail
    · simp only [Event.err, Option.some.injEq] at hfail
      subst hfail
      exact ⟨rfl, [_], rfl, by simp [Event.err]⟩
  | metricsFailed e1 hc =>
    simp only [List.mem_cons, List.mem_singleton, List.not_mem_nil, or_false] at hev
    rcases hev with rfl | rfl | rfl
    · simp [Event.err] at hfail
    · simp [Event.err] at hfail
    · simp only [Event.err, Option.some.injEq] at hfail
      subst hfail
      exact ⟨rfl, [_, _], rfl, by simp [Event.err]⟩
  | measuredNilClip r hc hclip =>
    simp only [List.mem_cons, List.mem_singleton, List.not_mem_nil, or_false] at hev
    rcases hev with rfl | rfl | rfl <;> simp [Event.err] at hfail
  | customNilClip hc hclip =>
    simp only [List.mem_cons, List.mem_singleton, List.not_mem_nil, or_false] at hev
    rcases hev with rfl | rfl <;> simp [Event.err] at hfail
  | emulationFailed pre c hres e1 =>
    have hpre : ∀ x ∈ pre, x.err = none := by cases hres <;> simp [Event.err]
    simp only [List.mem_append, List.mem_singleton] at hev
    rcases hev with hev | rfl
    · rw [hpre _ hev] at hfail; cases hfail
    · simp only [emulationEvent, Event.err, Option.some.injEq] at hfail
      subst hfail
      exact ⟨rfl, pre, rfl, hpre⟩
  | captureFailed pre c hres b e1 =>
    have hpre : ∀ x ∈ pre, x.err = none := by cases hres <;> simp [Event.err]
    simp only [List.mem_append, List.mem_cons, List.mem_singleton, List.not_mem_nil,
      or_false] at hev
    rcases hev with hev | rfl | rfl
    · rw [hpre _ hev] at hfail; cases hfail
    · simp [emulationEvent, Event.err] at hfail
    · simp only [Event.err, Option.some.injEq] at hfail
      subst hfail
      refine ⟨rfl, pre ++ [emulationEvent impl c none], by simp, ?_⟩
      intro x hx
      simp only [List.mem_append, List.mem_singleton] at hx
      rcases hx with hx | rfl
      · exact hpre _ hx
      · simp [emulationEvent, Event.err]
  | captured pre c hres b =>
    have hpre : ∀ x ∈ pre, x.err = none := by cases hres <;> simp [Event.err]
    simp only [List.mem_append, List.mem_cons, List.mem_singleton, List.not_mem_nil,
      or_false] at hev
    rcases hev with hev | rfl | rfl
    · rw [hpre _ hev] at hfail; cases hfail
    · simp [emulationEvent, Event.err] at hfail
    · simp [Event.err] at hfail

/-- The steps of a path are of distinct kinds and in the order of the source. -/
theorem convertPath_kinds {p : Html2ImageParams} {url : String} {impl : Float64 → Int}
    {buf0 : ByteSlice} {sts : List Event} {res : Result} {clip : Option Viewport}
    {buf : ByteSlice} (hp : ConvertPath p url impl buf0 sts res clip buf) :
    (sts.filterMap Event.kind).Sublist
      [.navigate, .sleep, .getLayoutMetrics, .setDeviceMetricsOverride, .captureScreenshot] := by
  cases hp with
  | emulationFailed pre c hres e =>
    cases hres <;> simp [Event.kind, emulationEvent]
  | captureFailed pre c hres b e =>
    cases hres <;> simp [Event.kind, emulationEvent]
  | captured pre c hres b =>
    cases hres <;> simp [Event.kind, emulationEvent]
  | _ => simp [Event.kind]

/-- The conversion to `int64` is exact on an integral value in range. -/
theorem int64OfFloat64_intCast (impl : Float64 → Int) (n : Int)
    (hlo : -(2 : Int) ^ 63 ≤ n) (hhi : n < (2 : Int) ^ 63) :
    int64OfFloat64 impl (.finite (n : ℚ)) = n := by
  have h1 : -(9223372036854775808 : Int) ≤ n := by omega
  have h2 : n < (9223372036854775808 : Int) := by omega
  simp [int64OfFloat64, h1, h2]

/-- The conversion to `int64` yields an `int64`, whatever the platform answers
out of range. -/
theorem int64OfFloat64_range (impl : Float64 → Int) (f : Float64) :
    -(2 : Int) ^ 63 ≤ int64OfFloat64 impl f ∧ int64OfFloat64 impl f < (2 : Int) ^ 63 := by
  have hw : ∀ x : Int, -(2 : Int) ^ 63 ≤ wrapInt64 x ∧ wrapInt64 x < (2 : Int) ^ 63 := by
    intro x
    unfold wrapInt64
    constructor <;> omega
  cases f with
  | finite v =>
    simp only [int64OfFloat64]
    split
    · assumption
    · exact hw _
  | _ => exact hw _

/-- A waiting time whose nanoseconds fit `int64` is not changed by the
multiplication. -/
theorem durationMilliseconds_exact (w : Int) (hlo : -9223372036854 ≤ w)
    (hhi : w ≤ 9223372036854) : durationMilliseconds w = w * 1000000 := by
  unfold durationMilliseconds wrapInt64 timeMillisecond
  omega

/-! ### The measured clip -/

/-- C1: when `CustomClip` is false and the layout-metrics query of the
invocation succeeded with content size `r`, every screenshot capture that
`Convert` issues gets the clip with X, Y, width and height of `r`, not those of
the caller, and with the scale of the caller; and when the clip pointer of the
caller is not nil and no step fails, the capture is issued with that clip. -/
theorem convert_measured_clip (env : Env) (ins : html2image) (p : Html2ImageParams)
    (h : ins.cc.Params = .html2ImageParams p) (hc : p.CustomClip = false) (r : Rect)
    (hm : Event.getLayoutMetrics (.ok r) ∈ (ins.Convert env).trace) :
    (∀ cp buf err, Event.captureScreenshot cp buf err ∈ (ins.Convert env).trace →
      ∃ c, p.Clip = some c ∧
        cp.Clip = some { X := r.X, Y := r.Y, Width := r.Width, Height := r.Height,
                         Scale := c.Scale }) ∧
    (∀ c, p.Clip = some c → (∀ ev ∈ (ins.Convert env).trace, ev.err = none) →
      ∃ buf, Event.captureScreenshot
        { p.toCaptureScreenshotParams with
          Clip := some { X := r.X, Y := r.Y, Width := r.Width, Height := r.Height,
                         Scale := c.Scale } } buf none ∈ (ins.Convert env).trace) := by
  have hctx : ins.ctx.isNil = false := by
    cases hn : ins.ctx.isNil with
    | false => rfl
    | true =>
      rw [(convert_no_session env ins (createsSession_nil_context ins hn)).1] at hm
      simp at hm
  obtain ⟨sts, res, clip, buf, hpath, htrace, -⟩ := convert_path env ins p h hctx
  rw [mem_trace_of_path htrace (.getLayoutMetrics (.ok r)) rfl] at hm
  constructor
  · intro cp b err hcap
    rw [mem_trace_of_path htrace (.captureScreenshot cp b err) rfl] at hcap
    cases hpath with
    | emulationFailed pre c hres e =>
      cases hres <;> simp_all [emulationEvent]
    | captureFailed pre c hres b e =>
      cases hres <;> simp_all [emulationEvent]
    | captured pre c hres b =>
      cases hres <;> simp_all [emulationEvent]
    | _ => simp_all
  · intro c hclip hok
    have hok2 : ∀ ev ∈ sts, ev.err = none := fun ev hev =>
      hok ev (by rw [htrace]; simp [hev])
    cases hpath with
    | emulationFailed pre c hres e =>
      cases hres <;> simp_all [emulationEvent, Event.err]
    | captureFailed pre c hres b e =>
      cases hres <;> simp_all [emulationEvent, Event.err]
    | captured pre c hres b =>
      cases hres <;> simp_all [emulationEvent, Event.err]
    | _ => simp_all [Event.err]

/-- Witness of `convert_measured_clip`: the end-to-end scenario, where the
capture gets the clip 0, 0, 800, 600 at the default scale 1, not the default
clip of 996 by 996. -/
theorem convert_measured_clip_witness :
    (scenarioIns.cc.Params = .html2ImageParams NewDefaultHtml2ImageParams ∧
      NewDefaultHtml2ImageParams.CustomClip = false ∧
      Event.getLayoutMetrics (.ok scenarioRect) ∈ (scenarioIns.Convert scenarioEnv).trace) ∧
    ((∀ cp buf err,
        Event.captureScreenshot cp buf err ∈ (scenarioIns.Convert scenarioEnv).trace →
        ∃ c, NewDefaultHtml2ImageParams.Clip = some c ∧
          cp.Clip = some { X := scenarioRect.X, Y := scenarioRect.Y,
                           Width := scenarioRect.Width, Height := scenarioRect.Height,
                           Scale := c.Scale }) ∧
      (∀ c, NewDefaultHtml2ImageParams.Clip = some c →
        (∀ ev ∈ (scenarioIns.Convert scenarioEnv).trace, ev.err = none) →
        ∃ buf, Event.captureScreenshot
          { NewDefaultHtml2ImageParams.toCaptureScreenshotParams with
            Clip := some { X := scenarioRect.X, Y := scenarioRect.Y,
                           Width := scenarioRect.Width, Height := scenarioRect.Height,
                           Scale := c.Scale } } buf none ∈
            (scenarioIns.Convert scenarioEnv).trace)) ∧
    Event.captureScreenshot
      { Format := "png", Quality := 0, Clip := some scenarioClip, FromSurface := true }
      (.bytes [1, 2, 3]) none ∈ (scenarioIns.Convert scenarioEnv).trace :=
  ⟨⟨by decide, by decide, by decide⟩,
    convert_measured_clip scenarioEnv scenarioIns NewDefaultHtml2ImageParams (by decide)
      (by decide) scenarioRect (by decide),
    by decide⟩

/-! ### The custom clip -/

/-- C2: when `CustomClip` is true, every screenshot capture that `Convert`
issues gets exactly the capture parameters of the caller, clip X, Y, width,
height and scale included; no layout-metrics query is issued, and the
parameters stored in the receiver are left as they were; and when the clip
pointer of the caller is not nil, the session exists (the parent context is
not nil) and no step fails, the capture is issued. -/
theorem convert_custom_clip (env : Env) (ins : html2image) (p : Html2ImageParams)
    (h : ins.cc.Params = .html2ImageParams p) (hc : p.CustomClip = true) :
    (∀ cp buf err, Event.captureScreenshot cp buf err ∈ (ins.Convert env).trace →
      cp = p.toCaptureScreenshotParams ∧ ∃ c, cp.Clip = some c ∧ p.Clip = some c) ∧
    (∀ reply, Event.getLayoutMetrics reply ∉ (ins.Convert env).trace) ∧
    (ins.Convert env).ins.cc.Params = ins.cc.Params ∧
    (∀ c, p.Clip = some c → ins.ctx.isNil = false →
      (∀ ev ∈ (ins.Convert env).trace, ev.err = none) →
      ∃ buf, Event.captureScreenshot p.toCaptureScreenshotParams buf none ∈
        (ins.Convert env).trace) := by
  cases hn : ins.ctx.isNil with
  | true =>
    obtain ⟨htr, hins, -⟩ := convert_no_session env ins (createsSession_nil_context ins hn)
    refine ⟨?_, ?_, ?_, ?_⟩
    · intro cp b err hcap
      rw [htr] at hcap
      simp at hcap
    · intro reply hm
      rw [htr] at hm
      simp at hm
    · rw [hins]
    · intro c hclip hctx
      cases hctx
  | false =>
  obtain ⟨sts, res, clip, buf, hpath, htrace, -, -, hparams, -⟩ := convert_path env ins p h hn
  have heta : ∀ c, p.Clip = some c →
      ({ p.toCaptureScreenshotParams with Clip := some c } : CaptureScreenshotParams) =
        p.toCaptureScreenshotParams := by
    intro c hclip
    obtain ⟨⟨f, q, cl, fs⟩, cc, w⟩ := p
    simp_all
  refine ⟨?_, ?_, ?_, ?_⟩
  · intro cp b err hcap
    rw [mem_trace_of_path htrace (.captureScreenshot cp b err) rfl] at hcap
    cases hpath with
    | emulationFailed pre c hres e =>
      cases hres <;> simp_all [emulationEvent]
    | captureFailed pre c hres b e =>
      cases hres <;> simp_all [emulationEvent]
    | captured pre c hres b =>
      cases hres <;> simp_all [emulationEvent]
    | _ => simp_all
  · intro reply hm
    rw [mem_trace_of_path htrace (.getLayoutMetrics reply) rfl] at hm
    cases hpath with
    | emulationFailed pre c hres e =>
      cases hres <;> simp_all [emulationEvent]
    | captureFailed pre c hres b e =>
      cases hres <;> simp_all [emulationEvent]
    | captured pre c hres b =>
      cases hres <;> simp_all [emulationEvent]
    | _ => simp_all
  · rw [hparams, h]
    have hclip : clip = p.Clip := by
      cases hpath with
      | emulationFailed pre c hres e => cases hres <;> simp_all
      | captureFailed pre c hres b e => cases hres <;> simp_all
      | captured pre c hres b => cases hres <;> simp_all
      | _ => simp_all
    rw [hclip]
  · intro c hclip _ hok
    have hok2 : ∀ ev ∈ sts, ev.err = none := fun ev hev =>
      hok ev (by rw [htrace]; simp [hev])
    have hcap : ∃ b, Event.captureScreenshot p.toCaptureScreenshotParams b none ∈ sts := by
      cases hpath with
      | emulationFailed pre c hres e =>
        cases hres <;> simp_all [emulationEvent, Event.err]
      | captureFailed pre c hres b e =>
        cases hres <;> simp_all [emulationEvent, Event.err]
      | captured pre c hres b =>
        cases hres <;> simp_all [emulationEvent, Event.err]
      | _ => simp_all [Event.err]
    obtain ⟨b, hb⟩ := hcap
    exact ⟨b, (mem_trace_of_path htrace
      (.captureScreenshot p.toCaptureScreenshotParams b none) rfl).mpr hb⟩

/-- Witness of `convert_custom_clip`: a custom clip of 300 by 200 at (10, 20)
and scale 2 reaches the capture unchanged although the page measures 800 by
600, and no layout-metrics query is made. -/
theorem convert_custom_clip_witness :
    (customClipIns.cc.Params = .html2ImageParams customClipParams ∧
      customClipParams.CustomClip = true) ∧
    ((∀ cp buf err,
        Event.captureScreenshot cp buf err ∈ (customClipIns.Convert scenarioEnv).trace →
        cp = customClipParams.toCaptureScreenshotParams ∧
          ∃ c, cp.Clip = some c ∧ customClipParams.Clip = some c) ∧
      (∀ reply, Event.getLayoutMetrics reply ∉ (customClipIns.Convert scenarioEnv).trace) ∧
      (customClipIns.Convert scenarioEnv).ins.cc.Params = customClipIns.cc.Params ∧
      (∀ c, customClipParams.Clip = some c → customClipIns.ctx.isNil = false →
        (∀ ev ∈ (customClipIns.Convert scenarioEnv).trace, ev.err = none) →
        ∃ buf, Event.captureScreenshot customClipParams.toCaptureScreenshotParams buf none ∈
          (customClipIns.Convert scenarioEnv).trace)) ∧
    Event.captureScreenshot
      { Format := "png", Quality := 0,
        Clip := some { X := .finite 10, Y := .finite 20, Width := .finite 300,
                       Height := .finite 200, Scale := .finite 2 },
        FromSurface := true }
      (.bytes [1, 2, 3]) none ∈ (customClipIns.Convert scenarioEnv).trace :=
  ⟨⟨by decide, by decide⟩,
    convert_custom_clip scenarioEnv customClipIns customClipParams (by decide) (by decide),
    by decide⟩

/-! ### The successful invocation -/

/-- C3, amended: for every `Html2ImageParams` with `CustomClip` false and a
clip pointer that is not nil, and every session (created on a parent context
that is not nil) on which all steps succeed,
`Convert` returns a nil error and exactly the bytes that the capture returned,
and the browser calls of the invocation are navigate, get-layout-metrics, the
emulation override and the capture, each once and in that order, the last two
with the measured content size. -/
theorem convert_success (env : Env) (ins : html2image) (p : Html2ImageParams) (c : Viewport)
    (h : ins.cc.Params = .html2ImageParams p) (hctx : ins.ctx.isNil = false)
    (hc : p.CustomClip = false) (hclip : p.Clip = some c)
    (hok : ∀ ev ∈ (ins.Convert env).trace, ev.err = none) :
    ∃ r buf,
      (ins.Convert env).result = .returned buf none ∧
      browserCalls (ins.Convert env).trace =
        [ .navigate ins.cc.Url none,
          .getLayoutMetrics (.ok r),
          .setDeviceMetricsOverride (int64OfFloat64 env.floatToInt r.Width)
            (int64OfFloat64 env.floatToInt r.Height) (.finite 1) false
            (some { Typ := .portraitPrimary, Angle := 0 }) none,
          .captureScreenshot
            { p.toCaptureScreenshotParams with
              Clip := some { X := r.X, Y := r.Y, Width := r.Width, Height := r.Height,
                             Scale := c.Scale } } buf none ] := by
  obtain ⟨sts, res, clip, buf, hpath, htrace, hresult, -⟩ := convert_path env ins p h hctx
  have hok2 : ∀ ev ∈ sts, ev.err = none := fun ev hev =>
    hok ev (by rw [htrace]; simp [hev])
  have hb : browserCalls (ins.Convert env).trace = sts.filter Event.isBrowserCall := by
    rw [htrace]; simp [browserCalls, List.filter_append, Event.isBrowserCall]
  rw [hb, hresult]
  clear hb hresult hok htrace
  cases hpath with
  | emulationFailed pre c hres e =>
    cases hres <;> simp_all [emulationEvent, Event.err]
  | captureFailed pre c hres b e =>
    cases hres <;> simp_all [emulationEvent, Event.err]
  | captured pre c hres b =>
    cases hres with
    | custom c1 hc1 hclip1 => simp_all
    | measured c1 r hc1 hclip1 =>
      refine ⟨r, buf, rfl, ?_⟩
      simp_all [emulationEvent, Event.isBrowserCall]
  | _ => simp_all [Event.err]

/-- Witness of `convert_success`: the end-to-end scenario, which returns the
bytes 1, 2, 3 after navigate, get-layout-metrics, the override to 800 by 600
and the png capture with the clip 0, 0, 800, 600 at scale 1. -/
theorem convert_success_witness :
    (scenarioIns.cc.Params = .html2ImageParams NewDefaultHtml2ImageParams ∧
      scenarioIns.ctx.isNil = false ∧
      NewDefaultHtml2ImageParams.CustomClip = false ∧
      (∀ ev ∈ (scenarioIns.Convert scenarioEnv).trace, ev.err = none)) ∧
    (∃ r buf,
      (scenarioIns.Convert scenarioEnv).result = .returned buf none ∧
      browserCalls (scenarioIns.Convert scenarioEnv).trace =
        [ .navigate scenarioIns.cc.Url none,
          .getLayoutMetrics (.ok r),
          .setDeviceMetricsOverride (int64OfFloat64 scenarioEnv.floatToInt r.Width)
            (int64OfFloat64 scenarioEnv.floatToInt r.Height) (.finite 1) false
            (some { Typ := .portraitPrimary, Angle := 0 }) none,
          .captureScreenshot
            { NewDefaultHtml2ImageParams.toCaptureScreenshotParams with
              Clip := some { X := r.X, Y := r.Y, Width := r.Width, Height := r.Height,
                             Scale := DefaultViewportScale } } buf none ]) ∧
    (scenarioIns.Convert scenarioEnv).result = .returned (.bytes [1, 2, 3]) none ∧
    browserCalls (scenarioIns.Convert scenarioEnv).trace =
      [ .navigate "https://example.test" none,
        .getLayoutMetrics (.ok scenarioRect),
        .setDeviceMetricsOverride 800 600 (.finite 1) false
          (some { Typ := .portraitPrimary, Angle := 0 }) none,
        .captureScreenshot
          { Format := "png", Quality := 0, Clip := some scenarioClip, FromSurface := true }
          (.bytes [1, 2, 3]) none ] :=
  ⟨⟨by decide, by decide, by decide, by decide⟩,
    convert_success scenarioEnv scenarioIns NewDefaultHtml2ImageParams
      { X := DefaultViewportX, Y := DefaultViewportY, Width := DefaultViewportWidth,
        Height := DefaultViewportHeight, Scale := DefaultViewportScale }
      (by decide) (by decide) (by decide) (by decide) (by decide),
    by decide, by decide⟩

/-- C3, as stated, fails: on the zero-valued parameters, whose clip pointer
is nil, and a session on which every step succeeds, `Convert` does not return:
it panics after the layout-metrics query, on the store through the pointer. -/
theorem convert_nil_clip_panics :
    nilClipParams.CustomClip = false ∧
      (∀ ev ∈ (nilClipIns.Convert scenarioEnv).trace, ev.err = none) ∧
      (nilClipIns.Convert scenarioEnv).result = .panicked ∧
      browserCalls (nilClipIns.Convert scenarioEnv).trace =
        [.navigate "https://example.test" none, .getLayoutMetrics (.ok scenarioRect)] := by
  decide

/-! ### The first failure -/

/-- C4: when a step of an invocation of `Convert` (navigation, sleep,
layout-metrics query, emulation override or capture) fails with the error `e`,
all steps before it having succeeded, `Convert` returns nil bytes and `e`
itself; the failing step is the last one issued, followed only by the teardown
and the final clock reading; and each kind of step is issued at most once, in
the order of the source. -/
theorem convert_first_failure (env : Env) (ins : html2image) (ev : Event) (e : GoError)
    (hev : ev ∈ (ins.Convert env).trace) (hfail : ev.err = some e) :
    (ins.Convert env).result = .returned .nil (some e) ∧
      (∃ pre t, (ins.Convert env).trace = pre ++ [ev, .cancel, .timeNow t] ∧
        ∀ x ∈ pre, x.err = none) ∧
      (stepKinds (ins.Convert env).trace).Sublist
        [.navigate, .sleep, .getLayoutMetrics, .setDeviceMetricsOverride,
          .captureScreenshot] := by
  cases hk : ins.createsSession with
  | false =>
    rw [(convert_no_session env ins hk).1] at hev
    simp only [List.mem_cons, List.mem_singleton, List.not_mem_nil, or_false] at hev
    rcases hev with rfl | rfl <;> simp [Event.err] at hfail
  | true =>
    obtain ⟨p, hP, hctx⟩ := createsSession_true ins hk
    obtain ⟨sts, res, clip, buf, hpath, htrace, hres, -⟩ := convert_path env ins p hP hctx
    have hstep : ev.isStep = true := by
      cases ev <;> simp_all [Event.err, Event.isStep]
    rw [mem_trace_of_path htrace ev hstep] at hev
    obtain ⟨hr, pre, hsts, hpre⟩ := convertPath_failure hpath ev e hev hfail
    refine ⟨by rw [hres, hr], ⟨[.timeNow (env.clock []), .newContext] ++ pre,
      env.clock ([.timeNow (env.clock []), .newContext] ++ sts ++ [.cancel]), ?_, ?_⟩, ?_⟩
    · rw [htrace, hsts]; simp
    · intro x hx
      simp only [List.mem_append, List.mem_cons, List.mem_singleton, List.not_mem_nil,
        or_false] at hx
      rcases hx with (rfl | rfl) | hx
      · rfl
      · rfl
      · exact hpre x hx
    · have hkinds := convertPath_kinds hpath
      simpa [stepKinds, htrace, Event.kind] using hkinds

/-- Witness of `convert_first_failure`: navigation fails with "net down". -/
theorem convert_first_failure_witness :
    Event.navigate "https://example.test" (some (errorsNew "net down")) ∈
        (scenarioIns.Convert (navigateFailsEnv (errorsNew "net down"))).trace ∧
      (Event.navigate "https://example.test" (some (errorsNew "net down"))).err =
        some (errorsNew "net down") ∧
      ((scenarioIns.Convert (navigateFailsEnv (errorsNew "net down"))).result =
          .returned .nil (some (errorsNew "net down")) ∧
        (∃ pre t, (scenarioIns.Convert (navigateFailsEnv (errorsNew "net down"))).trace =
            pre ++ [Event.navigate "https://example.test" (some (errorsNew "net down")),
              .cancel, .timeNow t] ∧
          ∀ x ∈ pre, x.err = none) ∧
        (stepKinds (scenarioIns.Convert (navigateFailsEnv (errorsNew "net down"))).trace).Sublist
          [.navigate, .sleep, .getLayoutMetrics, .setDeviceMetricsOverride,
            .captureScreenshot]) :=
  ⟨by decide, by decide,
    convert_first_failure (navigateFailsEnv (errorsNew "net down")) scenarioIns
      (Event.navigate "https://example.test" (some (errorsNew "net down")))
      (errorsNew "net down") (by decide) (by decide)⟩

/-- The three later steps fail the same way on concrete sessions: the error
comes back with nil bytes, and the kinds of the steps issued end with the one
that failed. -/
theorem convert_failure_examples :
    ((scenarioIns.Convert (metricsFailsEnv (errorsNew "closed"))).result =
        .returned .nil (some (errorsNew "closed")) ∧
      stepKinds (scenarioIns.Convert (metricsFailsEnv (errorsNew "closed"))).trace =
        [.navigate, .sleep, .getLayoutMetrics]) ∧
    ((scenarioIns.Convert (emulationFailsEnv (errorsNew "bad size"))).result =
        .returned .nil (some (errorsNew "bad size")) ∧
      stepKinds (scenarioIns.Convert (emulationFailsEnv (errorsNew "bad size"))).trace =
        [.navigate, .sleep, .getLayoutMetrics, .setDeviceMetricsOverride]) ∧
    ((scenarioIns.Convert (captureFailsEnv (errorsNew "encode"))).result =
        .returned .nil (some (errorsNew "encode")) ∧
      stepKinds (scenarioIns.Convert (captureFailsEnv (errorsNew "encode"))).trace =
        [.navigate, .sleep, .getLayoutMetrics, .setDeviceMetricsOverride,
          .captureScreenshot]) := by
  decide

/-! ### The wrong parameter type -/

/-- C5, amended: on a `Params` value that is not a `Html2ImageParams` (nil, a
pointer to one, any other type), `Convert` returns nil bytes and the error
with the message "wrong html2image params given", runs no step, and creates no
session: there is no session to tear down, and no teardown call is made. -/
theorem convert_wrong_params (env : Env) (ins : html2image)
    (h : ins.cc.Params.isHtml2ImageParams = false) :
    (ins.Convert env).result =
        .returned .nil (some (errorsNew "wrong html2image params given")) ∧
      (errorsNew "wrong html2image params given").msg = "wrong html2image params given" ∧
      steps (ins.Convert env).trace = [] ∧
      newContextCount (ins.Convert env).trace = 0 ∧
      cancelCount (ins.Convert env).trace = 0 := by
  rw [convert_mismatch env ins h]
  simp [steps, Event.isStep, newContextCount, cancelCount, errorsNew]

/-- Witness of `convert_wrong_params`: a pointer to the default parameters. -/
theorem convert_wrong_params_witness :
    pointerParamsIns.cc.Params.isHtml2ImageParams = false ∧
      (pointerParamsIns.Convert scenarioEnv).result =
        .returned .nil (some (errorsNew "wrong html2image params given")) ∧
      (errorsNew "wrong html2image params given").msg = "wrong html2image params given" ∧
      steps (pointerParamsIns.Convert scenarioEnv).trace = [] ∧
      newContextCount (pointerParamsIns.Convert scenarioEnv).trace = 0 ∧
      cancelCount (pointerParamsIns.Convert scenarioEnv).trace = 0 :=
  ⟨by decide, convert_wrong_params scenarioEnv pointerParamsIns (by decide)⟩

/-- C5, as stated, fails: on the nil `Params` value the trace of `Convert`
holds no teardown, although the claim says that teardown still occurs. -/
theorem convert_nil_params_no_teardown :
    nilParamsIns.cc.Params.isHtml2ImageParams = false ∧
      Event.cancel ∉ (nilParamsIns.Convert scenarioEnv).trace := by
  decide

/-! ### The teardown -/

/-- C6, amended: in every invocation of `Convert` the session teardown is
called as often as a session is created.  An invocation that creates a session
(`Params` holds a `Html2ImageParams` value and the parent context is not nil)
calls it exactly once, whichever way it ends, and no step comes after it.  An
invocation that creates no session (the type-mismatch return, or a nil parent
context, on which `chromedp.NewContext` panics before `cancel` is deferred)
does not call it. -/
theorem convert_teardown_count (env : Env) (ins : html2image) :
    cancelCount (ins.Convert env).trace = (if ins.createsSession then 1 else 0) ∧
      newContextCount (ins.Convert env).trace = (if ins.createsSession then 1 else 0) ∧
      ins.createsSession = (ins.cc.Params.isHtml2ImageParams && !ins.ctx.isNil) ∧
      ∀ pre post, (ins.Convert env).trace = pre ++ Event.cancel :: post →
        (∀ x ∈ post, x.isStep = false) ∧ Event.newContext ∈ pre := by
  cases hk : ins.createsSession with
  | false =>
    obtain ⟨htr, -, -⟩ := convert_no_session env ins hk
    rw [htr]
    refine ⟨by simp [cancelCount], by simp [newContextCount],
      by rw [← hk]; rfl, ?_⟩
    intro pre post hpp
    have hmem : Event.cancel ∈
        [Event.timeNow (env.clock []), .timeNow (env.clock [.timeNow (env.clock [])])] := by
      rw [hpp]; simp
    simp at hmem
  | true =>
    obtain ⟨p, hP, hctx⟩ := createsSession_true ins hk
    obtain ⟨sts, res, clip, buf, hpath, htrace, -⟩ := convert_path env ins p hP hctx
    have hst := convertPath_isStep hpath
    have hc : Event.cancel ∉ sts := fun hm => by simpa [Event.isStep] using hst _ hm
    have hn : Event.newContext ∉ sts := fun hm => by simpa [Event.isStep] using hst _ hm
    refine ⟨?_, ?_, ?_, ?_⟩
    · simp [htrace, cancelCount, List.count_eq_zero.mpr hc]
    · simp [htrace, newContextCount, List.count_eq_zero.mpr hn]
    · rw [← hk]; rfl
    · intro pre post hpp
      rw [htrace] at hpp
      have hnot : Event.cancel ∉ [Event.timeNow (env.clock []), Event.newContext] ++ sts := by
        simp [hc]
      have hpost : Event.cancel ∉ [Event.timeNow (env.clock
          ([Event.timeNow (env.clock []), Event.newContext] ++ sts ++ [Event.cancel]))] := by
        simp
      obtain ⟨hpre, -, hrest⟩ := (List.append_cons_inj_of_not_mem hnot hpost).mp hpp
      subst hpre hrest
      simp [Event.isStep]

/-- C6, as stated, fails on the type-mismatch return: on a pointer to the
default parameters the trace of `Convert` holds no teardown, not one. -/
theorem convert_pointer_params_teardown_count :
    cancelCount (pointerParamsIns.Convert scenarioEnv).trace = 0 := by
  decide

/-- On the default parameters and a nil parent context `Convert` panics at
`chromedp.NewContext`: no session is created, no teardown is called, no step
is run, and the elapsed time is still recorded. -/
theorem convert_nil_context_panics :
    nilContextIns.cc.Params.isHtml2ImageParams = true ∧
      nilContextIns.ctx.isNil = true ∧
      (nilContextIns.Convert scenarioEnv).result = .panicked ∧
      (nilContextIns.Convert scenarioEnv).trace = [.timeNow 1000, .timeNow 1250] ∧
      newContextCount (nilContextIns.Convert scenarioEnv).trace = 0 ∧
      cancelCount (nilContextIns.Convert scenarioEnv).trace = 0 ∧
      (nilContextIns.Convert scenarioEnv).ins.GetConvertElapsed = 250 := by
  decide

/-- On the default parameters and the background context the session is
created once and torn down once, also when a step fails or the clip pointer
is nil and `Convert` panics. -/
theorem convert_teardown_examples :
    (newContextCount (scenarioIns.Convert scenarioEnv).trace = 1 ∧
      cancelCount (scenarioIns.Convert scenarioEnv).trace = 1) ∧
    (newContextCount (scenarioIns.Convert (navigateFailsEnv (errorsNew "net down"))).trace = 1 ∧
      cancelCount (scenarioIns.Convert (navigateFailsEnv (errorsNew "net down"))).trace = 1) ∧
    (newContextCount (scenarioIns.Convert (captureFailsEnv (errorsNew "encode"))).trace = 1 ∧
      cancelCount (scenarioIns.Convert (captureFailsEnv (errorsNew "encode"))).trace = 1) ∧
    ((nilClipIns.Convert scenarioEnv).result = .panicked ∧
      newContextCount (nilClipIns.Convert scenarioEnv).trace = 1 ∧
      cancelCount (nilClipIns.Convert scenarioEnv).trace = 1) := by
  decide

/-! ### The sleep -/

/-- C7, amended: on a parent context that is not nil, so that the session
exists, `Convert` runs the sleep action whenever navigation succeeds,
whatever the waiting time is, also when it is 0 or negative; the sleep is the
second step, right after the navigation and before any layout-metrics query,
emulation override or capture, and no other sleep is issued; its duration is
the `int64` product of the waiting time and one millisecond, which is exactly
the waiting time in milliseconds when that product fits `int64`.  When
navigation fails, no sleep is issued. -/
theorem convert_sleep (env : Env) (ins : html2image) (p : Html2ImageParams)
    (h : ins.cc.Params = .html2ImageParams p) (hctx : ins.ctx.isNil = false) :
    ((∃ e, steps (ins.Convert env).trace = [.navigate ins.cc.Url (some e)]) ∨
      (∃ err rest,
        steps (ins.Convert env).trace =
          .navigate ins.cc.Url none :: .sleep (durationMilliseconds p.WaitingTime) err :: rest ∧
        ∀ x ∈ rest, x.kind = some .getLayoutMetrics ∨
          x.kind = some .setDeviceMetricsOverride ∨ x.kind = some .captureScreenshot)) ∧
    (-9223372036854 ≤ p.WaitingTime → p.WaitingTime ≤ 9223372036854 →
      durationMilliseconds p.WaitingTime = p.WaitingTime * timeMillisecond) := by
  obtain ⟨sts, res, clip, buf, hpath, htrace, -⟩ := convert_path env ins p h hctx
  refine ⟨?_, fun hlo hhi => durationMilliseconds_exact _ hlo hhi⟩
  rw [steps_of_path hpath htrace]
  clear htrace
  cases hpath with
  | navigateFailed e => exact Or.inl ⟨e, rfl⟩
  | sleepFailed e => exact Or.inr ⟨some e, [], rfl, by simp⟩
  | metricsFailed e hc => exact Or.inr ⟨none, _, rfl, by simp [Event.kind]⟩
  | measuredNilClip r hc hclip => exact Or.inr ⟨none, _, rfl, by simp [Event.kind]⟩
  | customNilClip hc hclip => exact Or.inr ⟨none, [], rfl, by simp⟩
  | emulationFailed pre c hres e =>
    cases hres <;> exact Or.inr ⟨none, _, rfl, by simp [Event.kind, emulationEvent]⟩
  | captureFailed pre c hres b e =>
    cases hres <;> exact Or.inr ⟨none, _, rfl, by simp [Event.kind, emulationEvent]⟩
  | captured pre c hres b =>
    cases hres <;> exact Or.inr ⟨none, _, rfl, by simp [Event.kind, emulationEvent]⟩

/-- Witness of `convert_sleep`: a waiting time of 1500 milliseconds gives one
sleep of 1500000000 nanoseconds between navigate and get-layout-metrics. -/
theorem convert_sleep_witness :
    (waitingIns.cc.Params = .html2ImageParams waitingParams ∧
      waitingIns.ctx.isNil = false) ∧
    (((∃ e, steps (waitingIns.Convert scenarioEnv).trace =
          [.navigate waitingIns.cc.Url (some e)]) ∨
        (∃ err rest,
          steps (waitingIns.Convert scenarioEnv).trace =
            .navigate waitingIns.cc.Url none ::
              .sleep (durationMilliseconds waitingParams.WaitingTime) err :: rest ∧
          ∀ x ∈ rest, x.kind = some .getLayoutMetrics ∨
            x.kind = some .setDeviceMetricsOverride ∨ x.kind = some .captureScreenshot)) ∧
      (-9223372036854 ≤ waitingParams.WaitingTime → waitingParams.WaitingTime ≤ 9223372036854 →
        durationMilliseconds waitingParams.WaitingTime =
          waitingParams.WaitingTime * timeMillisecond)) ∧
    (steps (waitingIns.Convert scenarioEnv).trace).take 3 =
      [ .navigate "https://example.test" none, .sleep 1500000000 none,
        .getLayoutMetrics (.ok scenarioRect) ] :=
  ⟨⟨by decide, by decide⟩,
    convert_sleep scenarioEnv waitingIns waitingParams (by decide) (by decide), by decide⟩

/-- C7, as stated, fails: with the default waiting time 0 the sleep action is
still run, with the duration 0, between navigate and get-layout-metrics. -/
theorem convert_sleeps_at_zero :
    scenarioIns.cc.Params = .html2ImageParams NewDefaultHtml2ImageParams ∧
      NewDefaultHtml2ImageParams.WaitingTime = 0 ∧
      (steps (scenarioIns.Convert scenarioEnv).trace).take 3 =
        [ .navigate "https://example.test" none, .sleep 0 none,
          .getLayoutMetrics (.ok scenarioRect) ] := by
  decide

/-! ### The emulation override -/

/-- C8, amended: every emulation override that `Convert` issues has a device
scale factor of exactly 1, mobile emulation false and the orientation
portrait-primary at angle 0; its width and height are the `int64` conversions
of the width and height of the resolved clip, which is the clip of the caller
when `CustomClip` is true and the measured content size otherwise; a width or
height that is integral and within the range of `int64` is emulated exactly. -/
theorem convert_emulation (env : Env) (ins : html2image) (p : Html2ImageParams)
    (h : ins.cc.Params = .html2ImageParams p)
    (w ht : Int) (s : Float64) (m : Bool) (o : Option ScreenOrientation) (err : Option GoError)
    (hem : Event.setDeviceMetricsOverride w ht s m o err ∈ (ins.Convert env).trace) :
    s = .finite 1 ∧ m = false ∧ o = some { Typ := .portraitPrimary, Angle := 0 } ∧
    ∃ width height : Float64,
      ((p.CustomClip = true ∧ ∃ c, p.Clip = some c ∧ width = c.Width ∧ height = c.Height) ∨
        (p.CustomClip = false ∧ ∃ r, Event.getLayoutMetrics (.ok r) ∈ (ins.Convert env).trace ∧
          width = r.Width ∧ height = r.Height)) ∧
      w = int64OfFloat64 env.floatToInt width ∧
      ht = int64OfFloat64 env.floatToInt height ∧
      (∀ n : Int, -(2 : Int) ^ 63 ≤ n → n < (2 : Int) ^ 63 → width = .finite (n : ℚ) → w = n) ∧
      (∀ n : Int, -(2 : Int) ^ 63 ≤ n → n < (2 : Int) ^ 63 → height = .finite (n : ℚ) → ht = n) := by
  have hctx : ins.ctx.isNil = false := by
    cases hn : ins.ctx.isNil with
    | false => rfl
    | true =>
      rw [(convert_no_session env ins (createsSession_nil_context ins hn)).1] at hem
      simp at hem
  obtain ⟨sts, res, clip, buf, hpath, htrace, -⟩ := convert_path env ins p h hctx
  rw [mem_trace_of_path htrace (.setDeviceMetricsOverride w ht s m o err) rfl] at hem
  have key : ∀ (pre : List Event) (c : Viewport) (e : Option GoError),
      Resolved p ins.cc.Url pre c →
      Event.setDeviceMetricsOverride w ht s m o err ∈ pre ++ [emulationEvent env.floatToInt c e] →
      (∀ x ∈ pre, x ∈ (ins.Convert env).trace) →
      s = .finite 1 ∧ m = false ∧ o = some { Typ := .portraitPrimary, Angle := 0 } ∧
      ∃ width height : Float64,
        ((p.CustomClip = true ∧ ∃ c, p.Clip = some c ∧ width = c.Width ∧ height = c.Height) ∨
          (p.CustomClip = false ∧ ∃ r, Event.getLayoutMetrics (.ok r) ∈ (ins.Convert env).trace ∧
            width = r.Width ∧ height = r.Height)) ∧
        w = int64OfFloat64 env.floatToInt width ∧
        ht = int64OfFloat64 env.floatToInt height ∧
        (∀ n : Int, -(2 : Int) ^ 63 ≤ n → n < (2 : Int) ^ 63 → width = .finite (n : ℚ) → w = n) ∧
        (∀ n : Int, -(2 : Int) ^ 63 ≤ n → n < (2 : Int) ^ 63 → height = .finite (n : ℚ) → ht = n) := by
    intro pre c e hres hmem hsub
    have hnot : Event.setDeviceMetricsOverride w ht s m o err ∉ pre := by
      cases hres <;> simp
    simp only [List.mem_append, List.mem_singleton, hnot, false_or, emulationEvent,
      Event.setDeviceMetricsOverride.injEq] at hmem
    obtain ⟨hw, hh, hs, hm, ho, -⟩ := hmem
    refine ⟨hs, hm, ho, c.Width, c.Height, ?_, hw, hh, ?_, ?_⟩
    · cases hres with
      | custom c1 hc hclip => exact Or.inl ⟨hc, c, hclip, rfl, rfl⟩
      | measured c1 r hc hclip =>
        exact Or.inr ⟨hc, r, hsub _ (by simp), rfl, rfl⟩
    · intro n hlo hhi hn
      rw [hw, hn]; exact int64OfFloat64_intCast _ n hlo hhi
    · intro n hlo hhi hn
      rw [hh, hn]; exact int64OfFloat64_intCast _ n hlo hhi
  have hsub : ∀ x ∈ sts, x ∈ (ins.Convert env).trace := by
    intro x hx; rw [htrace]; simp [hx]
  clear htrace
  cases hpath with
  | emulationFailed pre c hres e =>
    exact key pre c (some e) hres hem (fun x hx => hsub x (by simp [hx]))
  | captureFailed pre c hres b e =>
    refine key pre c none hres ?_ (fun x hx => hsub x (by simp [hx]))
    simp only [List.mem_append, List.mem_cons, List.mem_singleton, List.not_mem_nil,
      or_false] at hem ⊢
    rcases hem with hem | hem | hem
    · exact Or.inl hem
    · exact Or.inr hem
    · cases hem
  | captured pre c hres b =>
    refine key pre c none hres ?_ (fun x hx => hsub x (by simp [hx]))
    simp only [List.mem_append, List.mem_cons, List.mem_singleton, List.not_mem_nil,
      or_false] at hem ⊢
    rcases hem with hem | hem | hem
    · exact Or.inl hem
    · exact Or.inr hem
    · cases hem
  | _ => simp at hem

/-- Witness of `convert_emulation`: in the end-to-end scenario the override is
issued for 800 by 600, the measured content size. -/
theorem convert_emulation_witness :
    (scenarioIns.cc.Params = .html2ImageParams NewDefaultHtml2ImageParams ∧
      Event.setDeviceMetricsOverride 800 600 (.finite 1) false
        (some { Typ := .portraitPrimary, Angle := 0 }) none ∈
          (scenarioIns.Convert scenarioEnv).trace) ∧
    (Float64.finite 1 = .finite 1 ∧ false = false ∧
      some ({ Typ := .portraitPrimary, Angle := 0 } : ScreenOrientation) =
        some { Typ := .portraitPrimary, Angle := 0 } ∧
      ∃ width height : Float64,
        ((NewDefaultHtml2ImageParams.CustomClip = true ∧
            ∃ c, NewDefaultHtml2ImageParams.Clip = some c ∧ width = c.Width ∧
              height = c.Height) ∨
          (NewDefaultHtml2ImageParams.CustomClip = false ∧
            ∃ r, Event.getLayoutMetrics (.ok r) ∈ (scenarioIns.Convert scenarioEnv).trace ∧
              width = r.Width ∧ height = r.Height)) ∧
        (800 : Int) = int64OfFloat64 scenarioEnv.floatToInt width ∧
        (600 : Int) = int64OfFloat64 scenarioEnv.floatToInt height ∧
        (∀ n : Int, -(2 : Int) ^ 63 ≤ n → n < (2 : Int) ^ 63 →
          width = .finite (n : ℚ) → (800 : Int) = n) ∧
        (∀ n : Int, -(2 : Int) ^ 63 ≤ n → n < (2 : Int) ^ 63 →
          height = .finite (n : ℚ) → (600 : Int) = n)) :=
  ⟨⟨by decide, by decide⟩,
    convert_emulation scenarioEnv scenarioIns NewDefaultHtml2ImageParams (by decide)
      800 600 (.finite 1) false (some { Typ := .portraitPrimary, Angle := 0 }) none
      (by decide)⟩

/-- C8, as stated, fails for an integral width beyond `int64`: with the custom
clip width two to the power 63 the override is issued with the width minus two
to the power 63 on this session, and on no platform with the width itself,
which is not an `int64`. -/
theorem convert_huge_width_not_exact :
    hugeClipParams.CustomClip = true ∧
      hugeClipParams.Clip =
        some { X := .finite 0, Y := .finite 0, Width := .finite ((9223372036854775808 : Int) : ℚ),
               Height := .finite 600, Scale := .finite 1 } ∧
      Event.setDeviceMetricsOverride (-9223372036854775808) 600 (.finite 1) false
        (some { Typ := .portraitPrimary, Angle := 0 }) none ∈
          (hugeClipIns.Convert scenarioEnv).trace := by
  decide

/-! ### The elapsed time -/

/-- C9: after every invocation of `Convert`, whichever way it ends,
`GetConvertElapsed` returns the clock reading taken at exit minus the one taken
at entry: the clock is read first and last, nowhere in between, and the
difference of the two readings is what is stored, whatever was stored before. -/
theorem convert_records_elapsed (env : Env) (ins : html2image) :
    ∃ mid : List Event,
      (ins.Convert env).trace =
        Event.timeNow (env.clock []) :: mid ++
          [Event.timeNow (env.clock (Event.timeNow (env.clock []) :: mid))] ∧
      (∀ t, Event.timeNow t ∉ mid) ∧
      (ins.Convert env).ins.GetConvertElapsed =
        env.clock (Event.timeNow (env.clock []) :: mid) - env.clock [] := by
  cases hk : ins.createsSession with
  | false =>
    obtain ⟨htr, hins, -⟩ := convert_no_session env ins hk
    refine ⟨[], ?_⟩
    simp [htr, hins, html2image.GetConvertElapsed]
  | true =>
    obtain ⟨p, hP, hctx⟩ := createsSession_true ins hk
    obtain ⟨sts, res, clip, buf, hpath, htrace, -, -, -, hel⟩ :=
      convert_path env ins p hP hctx
    refine ⟨[Event.newContext] ++ sts ++ [Event.cancel], ?_, ?_, ?_⟩
    · simp [htrace]
    · intro t ht
      simp only [List.mem_append, List.mem_singleton, List.mem_cons, List.not_mem_nil,
        or_false] at ht
      rcases ht with (ht | ht) | ht
      · cases ht
      · simpa [Event.isStep] using convertPath_isStep hpath _ ht
      · cases ht
    · simpa [html2image.GetConvertElapsed] using hel

/-! ### The parameters of a request -/

/-- C10: for every request DTO, `convertToHtml2ImageParams` returns parameters
with a non-nil clip whose format, quality, custom-clip flag, clip rectangle and
scale, from-surface flag and waiting time are those of the DTO; on the default
DTO the result is `NewDefaultHtml2ImageParams`, that is png, quality 0, no
custom clip, clip 0, 0, 996, 996 at scale 1, from surface, waiting time 0. -/
theorem convertToHtml2ImageParams_copies (d : Html2ImageRequestDTO) :
    ((convertToHtml2ImageParams d).Format = d.Format ∧
      (convertToHtml2ImageParams d).Quality = d.Quality ∧
      (convertToHtml2ImageParams d).CustomClip = d.CustomClip ∧
      (convertToHtml2ImageParams d).Clip =
        some { X := d.ClipX, Y := d.ClipY, Width := d.ClipWidth, Height := d.ClipHeight,
               Scale := d.ClipScale } ∧
      (convertToHtml2ImageParams d).FromSurface = d.FromSurface ∧
      (convertToHtml2ImageParams d).WaitingTime = d.WaitingTime) ∧
    convertToHtml2ImageParams newDefaultHtml2ImageRequestDTO = NewDefaultHtml2ImageParams ∧
    NewDefaultHtml2ImageParams =
      { Format := "png", Quality := 0, CustomClip := false,
        Clip := some { X := .finite 0, Y := .finite 0, Width := .finite 996,
                       Height := .finite 996, Scale := .finite 1 },
        FromSurface := true, WaitingTime := 0 } :=
  ⟨⟨rfl, rfl, rfl, rfl, rfl, rfl⟩, rfl, rfl⟩

end Html2Image
